import Mathlib

/-!
A shallow embedding of the bottleneck-resolution engine of the analyzer agent:
the trace scan in `src/utils/trace-analyzer.ts` (`findWorstBottleneck`,
`findStackInTrace`) and the controller logic in `src/analysis-controller.ts`
(`makeApiCall`, `resolveSourceLocation`, and the source-map retry loop of
`analyzeTraceFile`).  JavaScript's loose field access is modelled with
`Option`: a missing field is `none`, and every comparison that JavaScript
evaluates against `undefined` (always `false`) is modelled by an explicit
match that returns `false` when a side is `none`.
-/

/-- `args.data` payload of a trace event: every field is optional, exactly as
the loosely typed JS object. -/
structure EventData where
  url : Option String
  lineNumber : Option Int
  columnNumber : Option Int
  scriptId : Option String
  functionName : Option String
  deriving DecidableEq, Repr

/-- `args` of a trace event; only the `data` member is ever read by the engine. -/
structure Args where
  data : Option EventData
  deriving DecidableEq, Repr

/-- One entry of the trace document (Chrome trace event format).  `dur` is
optional because the code compares `event.dur` with `>` even when the field is
absent (in JS that comparison is simply `false`). -/
structure TraceEvent where
  name : String
  ph : String
  cat : Option String
  ts : Int
  dur : Option Int
  pid : Int
  tid : Int
  args : Option Args
  deriving DecidableEq, Repr

/-- The trace document: `{ traceEvents: [...] }`. -/
structure TraceDoc where
  traceEvents : List TraceEvent
  deriving DecidableEq, Repr

/-- A stack frame extracted from a trace event, already converted to
1-indexed coordinates (`lineNumber + 1`, `columnNumber + 1`). -/
structure StackFrame where
  scriptId : Option String
  url : String
  lineNumber : Int
  columnNumber : Int
  deriving DecidableEq, Repr

/-- JS `a > b` on possibly-missing numbers: `false` whenever a side is
`undefined`. -/
def durGt : Option Int → Option Int → Bool
  | some a, some b => decide (a > b)
  | _, _ => false

/-- Duration of the reduce accumulator: `none` stands for the literal seed
object `{ dur: 0 }` used by every `reduce` in the source, so its `dur` is 0. -/
def accDur : Option TraceEvent → Option Int
  | none => some 0
  | some e => e.dur

/-- The numeric duration of an event for the specification-level statements
(the code paths these statements cover only ever compare events whose `dur`
is present, so the default 0 is never load-bearing). -/
def durVal (e : TraceEvent) : Int := e.dur.getD 0

/-- One step of `reduce((max, event) => (event.dur > max.dur ? event : max), { dur: 0 })`. -/
def maxDurStep (max : Option TraceEvent) (event : TraceEvent) : Option TraceEvent :=
  if durGt event.dur (accDur max) then some event else max

/-- `events.reduce((max, event) => (event.dur > max.dur ? event : max), { dur: 0 })`;
`none` is the seed `{ dur: 0 }`. -/
def reduceMaxDur0 (events : List TraceEvent) : Option TraceEvent :=
  events.foldl maxDurStep none

/-- `a` is a prefix of `b` (char lists, used for the substring test below). -/
def isPrefixList : List Char → List Char → Bool
  | [], _ => true
  | _ :: _, [] => false
  | a :: as, b :: bs => a == b && isPrefixList as bs

/-- `pat` occurs as a contiguous substring of `s`. -/
def containsSub (pat : List Char) : List Char → Bool
  | [] => isPrefixList pat []
  | c :: rest => isPrefixList pat (c :: rest) || containsSub pat rest

/-- JS `event.cat?.includes("devtools.timeline")`: `false` when `cat` is
absent. -/
def catIncludesTimeline : Option String → Bool
  | none => false
  | some c => containsSub "devtools.timeline".toList c.toList

/-- The filter of step 1 of `findWorstBottleneck`:
`event.ph === "X" && event.dur > 50000 && event.cat?.includes("devtools.timeline")`. -/
def longTasks (t : TraceDoc) : List TraceEvent :=
  t.traceEvents.filter (fun event =>
    decide (event.ph = "X") && durGt event.dur (some 50000) &&
      catIncludesTimeline event.cat)

/-- `longestTask` of `findWorstBottleneck`: the filtered events reduced with
seed `{ dur: 0 }`.  A result of `none` is exactly the case the source detects
with `longestTask.dur === 0` (see `reduceMaxDur0_pos`: any non-seed result has
`dur > 0`). -/
def longestTask (t : TraceDoc) : Option TraceEvent :=
  reduceMaxDur0 (longTasks t)

/-- The priority list of nested event names searched inside the dominant task. -/
def candidateEventNames : List String :=
  ["Animation Frame Fired", "RunMicrotasks", "FunctionCall"]

/-- JS `event.ts < longestTask.ts + longestTask.dur` (NaN, hence `false`,
when `dur` is absent). -/
def tsLtEnd (event task : TraceEvent) : Bool :=
  match task.dur with
  | some d => decide (event.ts < task.ts + d)
  | none => false

/-- The `childEvents` filter inside the candidate-name loop of
`findWorstBottleneck`: name match plus half-open window and pid/tid equality.
Note the source does NOT exclude the dominant task itself here. -/
def childEventsFor (t : TraceDoc) (task : TraceEvent) (name : String) : List TraceEvent :=
  t.traceEvents.filter (fun event =>
    decide (event.name = name) &&
    decide (task.ts ≤ event.ts) &&
    tsLtEnd event task &&
    decide (event.pid = task.pid) &&
    decide (event.tid = task.tid))

/-- One iteration of the `for (const eventName of candidateEventNames)` loop:
keep the accumulator unless this name has matches and its longest match beats
the accumulator's `dur`. -/
def worstChildStep (t : TraceDoc) (task : TraceEvent)
    (acc : Option TraceEvent) (name : String) : Option TraceEvent :=
  let childEvents := childEventsFor t task name
  if childEvents.isEmpty then acc
  else
    let longestChild := reduceMaxDur0 childEvents
    if durGt (accDur longestChild) (accDur acc) then longestChild else acc

/-- `worstChildEvent` of `findWorstBottleneck`: the loop over the priority
names, accumulator seeded with `{ dur: 0 }` (= `none`).  A result of `none` is
exactly what the source detects with `worstChildEvent.dur === 0`. -/
def worstChildEvent (t : TraceDoc) (task : TraceEvent) : Option TraceEvent :=
  candidateEventNames.foldl (worstChildStep t task) none

/-- `event.args?.data`. -/
def dataOf (e : TraceEvent) : Option EventData :=
  e.args.bind (fun a => a.data)

/-- The check-and-build shared by both frame extraction sites:
`data && data.url && data.lineNumber != null && data.columnNumber != null`
(JS truthiness: an empty `url` string is falsy) and then the frame with the
one-time 0-indexed → 1-indexed conversion. -/
def extractFrame (d : EventData) : Option StackFrame :=
  match d.url, d.lineNumber, d.columnNumber with
  | some u, some ln, some cn =>
    if u.isEmpty then none
    else some { scriptId := d.scriptId, url := u,
                lineNumber := ln + 1, columnNumber := cn + 1 }
  | _, _, _ => none

/-- The frame carried by an event's own `args.data`, if complete. -/
def ownFrame (e : TraceEvent) : Option StackFrame :=
  (dataOf e).bind extractFrame

/-- JS `e.ts + e.dur <= parentEvent.ts + parentEvent.dur`
(`false` when either `dur` is absent). -/
def endContained (e p : TraceEvent) : Bool :=
  match e.dur, p.dur with
  | some ed, some pd => decide (e.ts + ed ≤ p.ts + pd)
  | _, _ => false

/-- The `children` filter of `findStackInTrace`: full containment in the
parent's window, pid/tid equality, and `e !== parentEvent` (reference
inequality, modelled structurally). -/
def stackChildren (t : TraceDoc) (parentEvent : TraceEvent) : List TraceEvent :=
  t.traceEvents.filter (fun e =>
    decide (parentEvent.ts ≤ e.ts) &&
    endContained e parentEvent &&
    decide (e.pid = parentEvent.pid) &&
    decide (e.tid = parentEvent.tid) &&
    !(decide (e = parentEvent)))

/-- The `functionCalls` list of `findStackInTrace`: the contained children
named `"FunctionCall"`. -/
def functionCallsIn (t : TraceDoc) (parentEvent : TraceEvent) : List TraceEvent :=
  (stackChildren t parentEvent).filter (fun e => decide (e.name = "FunctionCall"))

/-- The fallback branch of `findStackInTrace`: among the contained children
keep the `"FunctionCall"` entries, reduce with seed `{ dur: 0 }`, and only a
result with `dur > 0` (that is, a non-seed result, see `reduceMaxDur0_pos`)
carrying complete `args.data` yields a frame. -/
def childFrame (t : TraceDoc) (parentEvent : TraceEvent) : Option StackFrame :=
  let functionCalls := functionCallsIn t parentEvent
  if functionCalls.isEmpty then none
  else
    match reduceMaxDur0 functionCalls with
    | none => none
    | some lfc => ownFrame lfc

/-- `findStackInTrace`: the direct branch fires only when the parent is named
`"FunctionCall"` AND carries complete `args.data`; otherwise the one-level
recursion into contained `FunctionCall` children runs. -/
def findStackInTrace (t : TraceDoc) (parentEvent : TraceEvent) : Option StackFrame :=
  match decide (parentEvent.name = "FunctionCall"), ownFrame parentEvent with
  | true, some f => some f
  | _, _ => childFrame t parentEvent

/-- JS `bottleneckEvent.args?.data?.functionName || "N/A"` (an empty string is
falsy, so it also yields `"N/A"`). -/
def fnNameOf (e : TraceEvent) : String :=
  match (dataOf e).bind (fun d => d.functionName) with
  | some s => if s.isEmpty then "N/A" else s
  | none => "N/A"

/-- The constant summary message of the no-long-task branch. -/
def noLongTasksMsg : String :=
  "No long tasks were found. The trace appears to be clean."

/-- The engine's output.  Interpolated duration figures are carried as the raw
microsecond values (the source divides them by 1000 when building its message
strings / `duration_ms` fields). -/
inductive Bottleneck where
  | summaryNoLongTasks (text : String)
  | summaryNoChildEvents (longestTaskDur : Option Int)
  | summaryNoStackFrame (eventName : String) (parentTaskDur : Option Int)
      (bottleneckDur : Option Int) (functionName : String) (originalArgs : Option Args)
  | resolved (eventName : String) (category : Option String) (dur : Option Int)
      (stackFrame : StackFrame) (parentTaskDur : Option Int)
      (functionName : String) (originalArgs : Option Args)
  deriving DecidableEq, Repr

/-- `findWorstBottleneck` (the version with the priority-name search).  The
source guards with `longestTask.dur === 0` and `worstChildEvent.dur === 0`;
since every non-seed result of the seeded reduces has `dur > 0`
(`reduceMaxDur0_pos`, `worstChildEvent_pos`), those guards fire exactly on the
`none` arms of the matches below. -/
def findWorstBottleneck (t : TraceDoc) : Bottleneck :=
  match longestTask t with
  | none => Bottleneck.summaryNoLongTasks noLongTasksMsg
  | some task =>
    match worstChildEvent t task with
    | none => Bottleneck.summaryNoChildEvents task.dur
    | some c =>
      match findStackInTrace t c with
      | none =>
        Bottleneck.summaryNoStackFrame c.name task.dur c.dur (fnNameOf c) c.args
      | some sf =>
        Bottleneck.resolved (task.name ++ " > " ++ c.name) c.cat c.dur sf
          task.dur (fnNameOf c) c.args

/-!
## Controller models (`src/analysis-controller.ts`)

`makeApiCall` is a `while (attempts < maxRetries)` loop.  The outcome of each
attempt (the race of `model.generateContent` against the 60 s timer) is an
oracle `op : Nat → ApiOutcome` indexed by the 0-based value of `attempts` at
the moment the attempt starts.  The loop is embedded structurally on the fuel
`maxRetries - attempts`, and the observable behaviour is the trace of steps
(attempts made and backoff waits) plus the final result.
-/

/-- Outcome of one attempt of the remote call. -/
inductive ApiOutcome where
  | ok (result : Nat)
  | timeout
  | overload503
  | fatal (code : Nat)
  deriving DecidableEq, Repr

/-- Observable step of the retry loop. -/
inductive CallStep where
  | attempt (idx : Nat)
  | wait (ms : Nat)
  deriving DecidableEq, Repr

/-- Final result of `makeApiCall`. -/
inductive CallResult where
  | success (result : Nat)
  | nonRetryable (code : Nat)
  | terminalFailure
  deriving DecidableEq, Repr

/-- The retryable conditions of the `catch` block: the synthetic timeout error
or a 503 / temporarily-overloaded failure. -/
def retryable : ApiOutcome → Bool
  | ApiOutcome.timeout => true
  | ApiOutcome.overload503 => true
  | _ => false

/-- Whether a step is an attempt. -/
def isAttempt : CallStep → Bool
  | CallStep.attempt _ => true
  | _ => false

/-- The `while (attempts < maxRetries)` loop of `makeApiCall`, iterating over
the successive values of the 0-based `attempts` counter still below
`maxRetries`.  On a retryable failure the source does `attempts++` and then
sleeps `Math.pow(2, attempts) * 1000` ms, i.e. `2 ^ (attempts + 1) * 1000` in
terms of the failed attempt's 0-based index; any other failure is rethrown at
once; an exhausted loop throws the terminal error. -/
def apiLoop (op : Nat → ApiOutcome) : List Nat → List CallStep × CallResult
  | [] => ([], CallResult.terminalFailure)
  | attempts :: rest =>
    match op attempts with
    | ApiOutcome.ok r => ([CallStep.attempt attempts], CallResult.success r)
    | ApiOutcome.timeout =>
      let r := apiLoop op rest
      (CallStep.attempt attempts :: CallStep.wait (2 ^ (attempts + 1) * 1000) :: r.1,
       r.2)
    | ApiOutcome.overload503 =>
      let r := apiLoop op rest
      (CallStep.attempt attempts :: CallStep.wait (2 ^ (attempts + 1) * 1000) :: r.1,
       r.2)
    | ApiOutcome.fatal e => ([CallStep.attempt attempts], CallResult.nonRetryable e)

/-- `makeApiCall`: `maxRetries = 3`, so the `attempts` counter takes the
values 0, 1, 2. -/
def makeApiCall (op : Nat → ApiOutcome) : List CallStep × CallResult :=
  apiLoop op [0, 1, 2]

/-!
The source-map position query (`resolveSourceLocation`) and the retry loop
around it in `analyzeTraceFile`.  One call of `resolveSourceLocation` performs
one `originalPositionFor` query; the loop performs the initial query at the
extracted coordinates and, while unresolved, retries lines 1..5 with the
column unchanged, breaking on the first success.
-/

/-- An original source position recovered from a map. -/
structure OrigPos where
  source : String
  line : Int
  column : Int
  deriving DecidableEq, Repr

/-- The `for (let i = 1; i <= 5; i++)` retry loop of `analyzeTraceFile`,
iterating over the remaining fallback line numbers; records each query made
and stops at the first success. -/
def fallbackLoop (q : Int → Int → Option OrigPos) (col : Int) :
    List Int → List (Int × Int) × Option OrigPos
  | [] => ([], none)
  | i :: rest =>
    match q i col with
    | some loc => ([(i, col)], some loc)
    | none =>
      let r := fallbackLoop q col rest
      ((i, col) :: r.1, r.2)

/-- The fallback line numbers `1..5`. -/
def fallbackLines : List Int := [1, 2, 3, 4, 5]

/-- The whole retry block of `analyzeTraceFile`: the initial
`resolveSourceLocation(url, lineNumber, columnNumber)` query, then, only if it
returned `null`, the fallback loop over lines 1..5 with `columnNumber`
unchanged.  Returns the queries performed (in order) and the final result. -/
def resolveWithRetries (q : Int → Int → Option OrigPos) (line col : Int) :
    List (Int × Int) × Option OrigPos :=
  match q line col with
  | some loc => ([(line, col)], some loc)
  | none =>
    let r := fallbackLoop q col fallbackLines
    ((line, col) :: r.1, r.2)

/-!
Resource handling inside `resolveSourceLocation`: the function fetches the
map, creates a `SourceMapConsumer`, queries it, and destroys it — but the
whole body is a `try`/`catch` with no `finally`, so the effect trace depends
on where a failure occurs.  The environment fixes each external outcome.
-/

/-- Observable external actions of `resolveSourceLocation`. -/
inductive SMAction where
  | fetch
  | createConsumer
  | query
  | destroy
  deriving DecidableEq, Repr

/-- Outcome of the `originalPositionFor` query: a full position, the
nulls case (`source`/`line`/`column` not all present), or a thrown
exception. -/
inductive QueryOutcome where
  | pos (p : OrigPos)
  | unresolved
  | throws
  deriving DecidableEq, Repr

/-- The outcomes of the external calls made by one run of
`resolveSourceLocation`. -/
structure SMEnv where
  fetchOk : Bool
  consumerOk : Bool
  queryOutcome : QueryOutcome
  deriving DecidableEq, Repr

/-- `resolveSourceLocation`, as the trace of external actions plus the
returned value.  A thrown exception anywhere inside the `try` lands in the
`catch`, which returns `null`; only the two non-throwing paths after consumer
creation reach a `consumer.destroy()` call (there is no `finally` block). -/
def resolveSourceLocation (env : SMEnv) : List SMAction × Option OrigPos :=
  if !env.fetchOk then ([SMAction.fetch], none)
  else if !env.consumerOk then ([SMAction.fetch, SMAction.createConsumer], none)
  else
    match env.queryOutcome with
    | QueryOutcome.pos p =>
      ([SMAction.fetch, SMAction.createConsumer, SMAction.query, SMAction.destroy],
       some p)
    | QueryOutcome.unresolved =>
      ([SMAction.fetch, SMAction.createConsumer, SMAction.query, SMAction.destroy],
       none)
    | QueryOutcome.throws =>
      ([SMAction.fetch, SMAction.createConsumer, SMAction.query], none)

/-!
## Concrete trace documents used to instantiate and refute the claims
-/

/-- Event builder (field order: name, phase, categories, ts, dur, pid, tid, args). -/
def mkEvent (name ph : String) (cat : Option String) (ts : Int) (dur : Option Int)
    (pid tid : Int) (args : Option Args) : TraceEvent :=
  { name := name, ph := ph, cat := cat, ts := ts, dur := dur,
    pid := pid, tid := tid, args := args }

/-- A qualifying long task, 60 ms, window `[0, 60000)`. -/
def escT : TraceEvent :=
  mkEvent "Task" "X" (some "devtools.timeline") 0 (some 60000) 1 1 none

/-- A `FunctionCall` starting inside `escT`'s window but ending far beyond it
(ts 50000, dur 100000); its category keeps it out of the long-task filter. -/
def escC : TraceEvent :=
  mkEvent "FunctionCall" "X" (some "other") 50000 (some 100000) 1 1 none

/-- Trace in which the selected nested event escapes its parent's window. -/
def escTrace : TraceDoc := ⟨[escT, escC]⟩

/-- A long task that is itself named `FunctionCall`. -/
def selfFC : TraceEvent :=
  mkEvent "FunctionCall" "X" (some "devtools.timeline") 0 (some 60000) 1 1 none

/-- Trace whose dominant task matches a priority name. -/
def selfTrace : TraceDoc := ⟨[selfFC]⟩

/-- Complete `args.data` carried by a non-`FunctionCall` event. -/
def affData : EventData :=
  { url := some "app.js", lineNumber := some 3, columnNumber := some 4,
    scriptId := some "s7", functionName := some "anim" }

/-- An `Animation Frame Fired` long task carrying its own complete location. -/
def affSelf : TraceEvent :=
  mkEvent "Animation Frame Fired" "X" (some "devtools.timeline") 0 (some 60000)
    1 1 (some ⟨some affData⟩)

/-- Trace for the stack-extraction name-condition counterexample. -/
def affSelfTrace : TraceDoc := ⟨[affSelf]⟩

/-- An `Animation Frame Fired` parent without own location data. -/
def affP : TraceEvent :=
  mkEvent "Animation Frame Fired" "X" (some "devtools.timeline") 0 (some 55000)
    1 1 none

/-- A fully contained `FunctionCall` child of `affP`. -/
def affC : TraceEvent :=
  mkEvent "FunctionCall" "X" (some "devtools.timeline") 10 (some 100) 1 1
    (some ⟨some affData⟩)

/-- Trace in which the fallback recursion finds a contained `FunctionCall`. -/
def affTrace : TraceDoc := ⟨[affP, affC]⟩

/-- Two qualifying long tasks of equal duration; `tieA` comes first. -/
def tieA : TraceEvent :=
  mkEvent "A" "X" (some "devtools.timeline") 0 (some 60000) 1 1 none

/-- The later of the two tied tasks. -/
def tieB : TraceEvent :=
  mkEvent "B" "X" (some "devtools.timeline") 100 (some 60000) 1 1 none

/-- Trace with a duration tie among the long tasks. -/
def tieTrace : TraceDoc := ⟨[tieA, tieB]⟩

/-- Raw 0-indexed location data of a `FunctionCall` (line 9, column 4). -/
def fcData : EventData :=
  { url := some "app.js", lineNumber := some 9, columnNumber := some 4,
    scriptId := some "33", functionName := some "handler" }

/-- A 120 ms dominant task. -/
def taskW : TraceEvent :=
  mkEvent "Task" "X" (some "devtools.timeline") 0 (some 120000) 1 1 none

/-- A nested `FunctionCall` with complete location data inside `taskW`. -/
def fcW : TraceEvent :=
  mkEvent "FunctionCall" "X" (some "devtools.timeline") 10 (some 5000) 1 1
    (some ⟨some fcData⟩)

/-- Trace that produces a fully resolved bottleneck record. -/
def trW : TraceDoc := ⟨[taskW, fcW]⟩

/-- The 1-indexed frame extracted from `fcData` (10 = 9 + 1, 5 = 4 + 1). -/
def sfW : StackFrame :=
  { scriptId := some "33", url := "app.js", lineNumber := 10, columnNumber := 5 }

/-- A dominant task whose only priority-name match has `dur = 0`. -/
def zTask : TraceEvent :=
  mkEvent "Task" "X" (some "devtools.timeline") 0 (some 60000) 1 1 none

/-- A zero-duration `FunctionCall` inside `zTask`'s window. -/
def zFC : TraceEvent :=
  mkEvent "FunctionCall" "X" (some "other") 10 (some 0) 1 1 none

/-- Trace whose only priority-name match has no positive duration. -/
def zTrace : TraceDoc := ⟨[zTask, zFC]⟩

/-!
## Helper lemmas about the seeded `reduce`
-/

/-- `durGt` is transitive. -/
theorem durGt_trans {a b c : Option Int} (h1 : durGt a b = true)
    (h2 : durGt b c = true) : durGt a c = true := by
  cases a <;> cases b <;> cases c <;> simp [durGt] at * <;> omega

/-- A positive `durGt` bound forces the duration to be present and positive. -/
theorem durGt_pos_elim {a : Option Int} (h : durGt a (some 0) = true) :
    ∃ d, a = some d ∧ 0 < d := by
  cases a with
  | none => simp [durGt] at h
  | some d => exact ⟨d, rfl, by simpa [durGt] using h⟩

/-- Folding `maxDurStep` from a real event never falls back to the seed. -/
theorem foldl_maxDurStep_some (l : List TraceEvent) (a : TraceEvent) :
    ∃ b, l.foldl maxDurStep (some a) = some b := by
  induction l generalizing a with
  | nil => exact ⟨a, rfl⟩
  | cons x l ih =>
    simp only [List.foldl_cons]
    cases hc : durGt x.dur (accDur (some a)) with
    | true =>
      rw [show maxDurStep (some a) x = some x from by simp [maxDurStep, hc]]
      exact ih x
    | false =>
      rw [show maxDurStep (some a) x = some a from by simp [maxDurStep, hc]]
      exact ih a

/-- Any non-seed fold result is an element of the list (or the start
accumulator) and beats the start accumulator's duration. -/
theorem reduceMaxDur0_go (l : List TraceEvent) :
    ∀ (acc : Option TraceEvent) (e : TraceEvent),
      l.foldl maxDurStep acc = some e →
      (e ∈ l ∨ acc = some e) ∧ (durGt e.dur (accDur acc) = true ∨ acc = some e) := by
  induction l with
  | nil =>
    intro acc e h
    simp only [List.foldl_nil] at h
    exact ⟨Or.inr h, Or.inr h⟩
  | cons x l ih =>
    intro acc e h
    simp only [List.foldl_cons] at h
    cases hc : durGt x.dur (accDur acc) with
    | true =>
      rw [show maxDurStep acc x = some x from by simp [maxDurStep, hc]] at h
      obtain ⟨hmem, hdur⟩ := ih (some x) e h
      refine ⟨?_, ?_⟩
      · rcases hmem with h1 | h1
        · exact Or.inl (List.mem_cons_of_mem _ h1)
        · rw [Option.some_inj] at h1
          exact Or.inl (h1 ▸ List.mem_cons_self _ _)
      · rcases hdur with h2 | h2
        · have h2' : durGt e.dur x.dur = true := by simpa [accDur] using h2
          exact Or.inl (durGt_trans h2' hc)
        · rw [Option.some_inj] at h2
          exact Or.inl (h2 ▸ hc)
    | false =>
      rw [show maxDurStep acc x = acc from by simp [maxDurStep, hc]] at h
      obtain ⟨hmem, hdur⟩ := ih acc e h
      exact ⟨hmem.imp (List.mem_cons_of_mem _) id, hdur⟩

/-- A non-seed result of the seeded reduce is an element of the list. -/
theorem reduceMaxDur0_mem {l : List TraceEvent} {e : TraceEvent}
    (h : reduceMaxDur0 l = some e) : e ∈ l := by
  rcases (reduceMaxDur0_go l none e h).1 with h1 | h1
  · exact h1
  · exact Option.noConfusion h1

/-- A non-seed result of the seeded reduce has `dur > 0`: this is why the
source's `.dur === 0` / `.dur > 0` guards coincide with the `none` case of
the embedding. -/
theorem reduceMaxDur0_pos {l : List TraceEvent} {e : TraceEvent}
    (h : reduceMaxDur0 l = some e) : durGt e.dur (some 0) = true := by
  rcases (reduceMaxDur0_go l none e h).2 with h1 | h1
  · simpa [accDur] using h1
  · exact Option.noConfusion h1

/-- Over a list of positive-duration events, the seeded reduce only returns
the seed on the empty list. -/
theorem reduceMaxDur0_eq_none {l : List TraceEvent}
    (hpos : ∀ x ∈ l, durGt x.dur (some 0) = true)
    (h : reduceMaxDur0 l = none) : l = [] := by
  cases l with
  | nil => rfl
  | cons y l' =>
    exfalso
    have hy := hpos y (List.mem_cons_self y l')
    unfold reduceMaxDur0 at h
    rw [List.foldl_cons,
      show maxDurStep none y = some y from by simp [maxDurStep, accDur, hy]] at h
    obtain ⟨b, hb⟩ := foldl_maxDurStep_some l' y
    rw [hb] at h
    exact Option.noConfusion h

/-!
## Lemmas about the candidate-name loop and the filters
-/

/-- Any non-seed result of the candidate-name loop came out of one of the
per-name filtered lists via the seeded reduce (hence has positive `dur`). -/
theorem worstChildEvent_go (t : TraceDoc) (task : TraceEvent) :
    ∀ (L : List String) (acc : Option TraceEvent) (c : TraceEvent),
      L.foldl (worstChildStep t task) acc = some c →
      acc = some c ∨
        ∃ name, name ∈ L ∧ c ∈ childEventsFor t task name ∧
          durGt c.dur (some 0) = true := by
  intro L
  induction L with
  | nil =>
    intro acc c h
    simp only [List.foldl_nil] at h
    exact Or.inl h
  | cons n L ih =>
    intro acc c h
    simp only [List.foldl_cons] at h
    rcases ih _ c h with h1 | h1
    · simp only [worstChildStep] at h1
      split at h1
      · exact Or.inl h1
      · split at h1
        · exact Or.inr ⟨n, List.mem_cons_self _ _, reduceMaxDur0_mem h1,
            reduceMaxDur0_pos h1⟩
        · exact Or.inl h1
    · obtain ⟨name, hn, hm⟩ := h1
      exact Or.inr ⟨name, List.mem_cons_of_mem _ hn, hm⟩

/-- The selected step-2 nested event belongs to one of the priority-name
candidate lists and has positive duration. -/
theorem worstChildEvent_spec {t : TraceDoc} {task c : TraceEvent}
    (h : worstChildEvent t task = some c) :
    ∃ name, name ∈ candidateEventNames ∧ c ∈ childEventsFor t task name ∧
      durGt c.dur (some 0) = true := by
  rcases worstChildEvent_go t task candidateEventNames none c h with h1 | h1
  · exact Option.noConfusion h1
  · exact h1

/-- Unpacking the step-2 candidate filter. -/
theorem childEventsFor_props {t : TraceDoc} {task : TraceEvent} {name : String}
    {c : TraceEvent} (h : c ∈ childEventsFor t task name) :
    c ∈ t.traceEvents ∧ c.name = name ∧ task.ts ≤ c.ts ∧ tsLtEnd c task = true ∧
      c.pid = task.pid ∧ c.tid = task.tid := by
  rw [childEventsFor, List.mem_filter] at h
  obtain ⟨hmem, hcond⟩ := h
  simp only [Bool.and_eq_true, decide_eq_true_eq] at hcond
  exact ⟨hmem, hcond.1.1.1.1, hcond.1.1.1.2, hcond.1.1.2, hcond.1.2, hcond.2⟩

/-- Unpacking the step-3 `children` filter: full containment plus pid/tid
equality and distinctness from the parent. -/
theorem stackChildren_props {t : TraceDoc} {p c : TraceEvent}
    (h : c ∈ stackChildren t p) :
    c ∈ t.traceEvents ∧ p.ts ≤ c.ts ∧ endContained c p = true ∧
      c.pid = p.pid ∧ c.tid = p.tid ∧ c ≠ p := by
  rw [stackChildren, List.mem_filter] at h
  obtain ⟨hmem, hcond⟩ := h
  simp only [Bool.and_eq_true, Bool.not_eq_true', decide_eq_true_eq,
    decide_eq_false_iff_not] at hcond
  exact ⟨hmem, hcond.1.1.1.1, hcond.1.1.1.2, hcond.1.1.2, hcond.1.2, hcond.2⟩

/-!
## First-occurrence maximum characterization of the seeded reduce
-/

/-- Over a list of positive-duration events, the seeded `reduce` returns the
FIRST element attaining the maximal duration: everything before it is
strictly smaller, everything after it is no larger. -/
theorem reduceMaxDur0_firstMax :
    ∀ (l : List TraceEvent), (∀ x ∈ l, durGt x.dur (some 0) = true) →
    ∀ e, reduceMaxDur0 l = some e →
    ∃ l1 l2, l = l1 ++ e :: l2 ∧ (∀ x ∈ l1, durVal x < durVal e) ∧
      (∀ x ∈ l2, durVal x ≤ durVal e) := by
  intro l
  induction l using List.reverseRecOn with
  | nil =>
    intro _ e h
    exact Option.noConfusion h
  | append_singleton l x ih =>
    intro hpos e h
    have hposl : ∀ y ∈ l, durGt y.dur (some 0) = true := fun y hy =>
      hpos y (List.mem_append_left _ hy)
    have hx := hpos x (List.mem_append_right _ (List.mem_singleton.mpr rfl))
    obtain ⟨dx, hdx, hdxpos⟩ := durGt_pos_elim hx
    have hfold : maxDurStep (reduceMaxDur0 l) x = some e := by
      rw [reduceMaxDur0, List.foldl_append, List.foldl_cons, List.foldl_nil] at h
      exact h
    cases hr : reduceMaxDur0 l with
    | none =>
      have hl : l = [] := reduceMaxDur0_eq_none hposl hr
      rw [hr] at hfold
      rw [show maxDurStep none x = some x from by
        simp [maxDurStep, accDur, hx]] at hfold
      rw [Option.some_inj] at hfold
      subst hfold
      exact ⟨[], [], by simp [hl], by simp, by simp⟩
    | some m =>
      obtain ⟨l1, l2, hdec, hbefore, hafter⟩ := ih hposl m hr
      obtain ⟨dm, hdm, hdmpos⟩ := durGt_pos_elim (reduceMaxDur0_pos hr)
      rw [hr] at hfold
      cases hc : durGt x.dur (accDur (some m)) with
      | true =>
        rw [show maxDurStep (some m) x = some x from by
          simp [maxDurStep, hc]] at hfold
        rw [Option.some_inj] at hfold
        subst hfold
        have hmx : dm < dx := by
          have : durGt x.dur m.dur = true := by simpa [accDur] using hc
          rw [hdx, hdm] at this
          simpa [durGt] using this
        refine ⟨l, [], by simp, ?_, by simp⟩
        intro y hy
        have hvx : durVal x = dx := by simp [durVal, hdx]
        have hvm : durVal m = dm := by simp [durVal, hdm]
        rw [hdec] at hy
        rcases List.mem_append.mp hy with hy1 | hy2
        · have := hbefore y hy1
          omega
        · rcases List.mem_cons.mp hy2 with hy3 | hy4
          · subst hy3; omega
          · have := hafter y hy4
            omega
      | false =>
        rw [show maxDurStep (some m) x = some m from by
          simp [maxDurStep, hc]] at hfold
        rw [Option.some_inj] at hfold
        subst hfold
        have hxm : dx ≤ dm := by
          have : durGt x.dur m.dur = false := by simpa [accDur] using hc
          rw [hdx, hdm] at this
          simpa [durGt] using this
        refine ⟨l1, l2 ++ [x], by simp [hdec], hbefore, ?_⟩
        intro y hy
        rcases List.mem_append.mp hy with hy1 | hy2
        · exact hafter y hy1
        · rw [List.mem_singleton.mp hy2]
          simp [durVal, hdx, hdm]
          omega

/-!
## Shape lemmas for the stack extraction and the retry wrapper
-/

/-- Any frame built by `extractFrame` carries the raw coordinates plus one. -/
theorem extractFrame_shape {d : EventData} {sf : StackFrame}
    (h : extractFrame d = some sf) :
    ∃ ln cn, d.lineNumber = some ln ∧ d.columnNumber = some cn ∧
      sf.lineNumber = ln + 1 ∧ sf.columnNumber = cn + 1 := by
  unfold extractFrame at h
  split at h
  · next u ln cn hu hln hcn =>
    split at h
    · exact Option.noConfusion h
    · rw [Option.some_inj] at h
      exact ⟨ln, cn, hln, hcn, by rw [← h], by rw [← h]⟩
  · exact Option.noConfusion h

/-- A frame returned by `findStackInTrace` is the `ownFrame` of either the
parent event itself or of one of the trace's events. -/
theorem findStackInTrace_shape {t : TraceDoc} {p : TraceEvent} {sf : StackFrame}
    (h : findStackInTrace t p = some sf) :
    ∃ e, (e = p ∨ e ∈ t.traceEvents) ∧ ownFrame e = some sf := by
  unfold findStackInTrace at h
  split at h
  · next f heq =>
    rw [Option.some_inj] at h
    exact ⟨p, Or.inl rfl, h ▸ heq⟩
  · next hne =>
    simp only [childFrame] at h
    split at h
    · exact Option.noConfusion h
    · split at h
      · exact Option.noConfusion h
      · next lfc hlfc =>
        have hmem := reduceMaxDur0_mem hlfc
        rw [functionCallsIn, List.mem_filter] at hmem
        exact ⟨lfc, Or.inr (stackChildren_props hmem.1).1, h⟩

/-- `Option.bind` inversion for `ownFrame`. -/
theorem ownFrame_elim {e : TraceEvent} {sf : StackFrame}
    (h : ownFrame e = some sf) :
    ∃ d, dataOf e = some d ∧ extractFrame d = some sf := by
  unfold ownFrame at h
  cases hd : dataOf e with
  | none => rw [hd] at h; exact Option.noConfusion h
  | some d => rw [hd] at h; exact ⟨d, rfl, h⟩

/-- The two retryable outcomes. -/
theorem retryable_elim {o : ApiOutcome} (h : retryable o = true) :
    o = ApiOutcome.timeout ∨ o = ApiOutcome.overload503 := by
  cases o <;> simp [retryable] at h ⊢

/-!
## Claim theorems
-/

/-- C7: for every trace document containing zero events that pass the
dominant-task filter (phase complete, duration > 50000 µs, timeline
category), `findWorstBottleneck` returns the summary record whose text
extends "No long tasks were found.", and never a resolved record. -/
theorem C7_no_long_tasks_summary (t : TraceDoc) (h : longTasks t = []) :
    findWorstBottleneck t = Bottleneck.summaryNoLongTasks noLongTasksMsg ∧
      noLongTasksMsg = "No long tasks were found." ++ " The trace appears to be clean." := by
  refine ⟨?_, rfl⟩
  unfold findWorstBottleneck longestTask
  rw [h]
  rfl

/-- Witness for C7 at the empty trace document. -/
theorem C7_witness :
    longTasks ⟨[]⟩ = [] ∧
      findWorstBottleneck ⟨[]⟩ = Bottleneck.summaryNoLongTasks noLongTasksMsg :=
  ⟨rfl, (C7_no_long_tasks_summary ⟨[]⟩ rfl).1⟩

/-- C8: the dominant task is the FIRST event of the filtered scan order
attaining the maximal duration — every earlier filtered event is strictly
shorter, every later one is no longer, so ties resolve to the first
occurrence. -/
theorem C8_dominant_task_first_max (t : TraceDoc) (e : TraceEvent)
    (h : longestTask t = some e) :
    ∃ l1 l2, longTasks t = l1 ++ e :: l2 ∧
      (∀ x ∈ l1, durVal x < durVal e) ∧ (∀ x ∈ l2, durVal x ≤ durVal e) := by
  apply reduceMaxDur0_firstMax (longTasks t) _ e h
  intro x hx
  rw [longTasks, List.mem_filter] at hx
  have hcond := hx.2
  simp only [Bool.and_eq_true] at hcond
  have h5 := hcond.1.2
  cases hxd : x.dur with
  | none => rw [hxd] at h5; simp [durGt] at h5
  | some d =>
    rw [hxd] at h5
    have : 50000 < d := by simpa [durGt] using h5
    simp [durGt]
    omega

/-- Witness for C8 on a trace with two tied 60 ms tasks: the first one
(`tieA`) is selected. -/
theorem C8_witness :
    longestTask tieTrace = some tieA ∧
      ∃ l1 l2, longTasks tieTrace = l1 ++ tieA :: l2 ∧
        (∀ x ∈ l1, durVal x < durVal tieA) ∧ (∀ x ∈ l2, durVal x ≤ durVal tieA) :=
  ⟨by decide, C8_dominant_task_first_max tieTrace tieA (by decide)⟩

/-- C10: a nested event with `dur` 0, missing, or non-positive is never
selected as the step-2 actionable nested event (part 1), and when every
priority-name match inside the dominant task's window lacks positive
duration, `findWorstBottleneck` returns the "no specific child events"
summary record (part 2). -/
theorem C10_positive_duration_gate :
    (∀ (t : TraceDoc) (task c : TraceEvent), worstChildEvent t task = some c →
      durGt c.dur (some 0) = true) ∧
    (∀ (t : TraceDoc) (task : TraceEvent), longestTask t = some task →
      (∀ name, name ∈ candidateEventNames →
        ∀ e, e ∈ childEventsFor t task name → durGt e.dur (some 0) = false) →
      findWorstBottleneck t = Bottleneck.summaryNoChildEvents task.dur) := by
  constructor
  · intro t task c h
    obtain ⟨_, _, _, hpos⟩ := worstChildEvent_spec h
    exact hpos
  · intro t task hl hall
    have hwc : worstChildEvent t task = none := by
      cases hw : worstChildEvent t task with
      | none => rfl
      | some c =>
        obtain ⟨name, hn, hmem, hpos⟩ := worstChildEvent_spec hw
        rw [hall name hn c hmem] at hpos
        exact Bool.noConfusion hpos
    simp [findWorstBottleneck, hl, hwc]

/-- Witness for C10: the only priority-name match (`zFC`) has `dur = 0`, and
the result is the no-child-events summary. -/
theorem C10_witness :
    longestTask zTrace = some zTask ∧
      findWorstBottleneck zTrace = Bottleneck.summaryNoChildEvents (some 60000) :=
  ⟨by decide, C10_positive_duration_gate.2 zTrace zTask (by decide) (by decide)⟩

/-- C1 counterexample: `escC` is selected as the step-2 nested event of the
dominant task `escT`, yet its end (`ts + dur = 150000`) exceeds the parent's
end (`60000`), so full containment fails for a selected nested event. -/
theorem C1_counterexample :
    longestTask escTrace = some escT ∧
      worstChildEvent escTrace escT = some escC ∧
      endContained escC escT = false := by decide

/-- C1 amended: the step-2 selected nested event is only guaranteed start
containment in the half-open window plus pid/tid equality — its end may
exceed the dominant task's end; the step-3 fallback FunctionCall, selected
from the `stackChildren` filter, does satisfy full containment with pid/tid
equality. -/
theorem C1_amended_containment :
    (∀ (t : TraceDoc) (task c : TraceEvent), worstChildEvent t task = some c →
      task.ts ≤ c.ts ∧ tsLtEnd c task = true ∧ c.pid = task.pid ∧ c.tid = task.tid) ∧
    (∀ (t : TraceDoc) (p e : TraceEvent),
      reduceMaxDur0 (functionCallsIn t p) = some e →
      p.ts ≤ e.ts ∧ endContained e p = true ∧ e.pid = p.pid ∧ e.tid = p.tid) := by
  constructor
  · intro t task c h
    obtain ⟨name, _, hmem, _⟩ := worstChildEvent_spec h
    obtain ⟨_, _, hts, hlt, hpid, htid⟩ := childEventsFor_props hmem
    exact ⟨hts, hlt, hpid, htid⟩
  · intro t p e h
    have hmem := reduceMaxDur0_mem h
    rw [functionCallsIn, List.mem_filter] at hmem
    obtain ⟨_, hts, hend, hpid, htid, _⟩ := stackChildren_props hmem.1
    exact ⟨hts, hend, hpid, htid⟩

/-- Witness for the amended C1: the step-2 guarantees at `escTrace`, and the
full step-3 containment at `affTrace`. -/
theorem C1_witness :
    (worstChildEvent escTrace escT = some escC ∧
      escT.ts ≤ escC.ts ∧ tsLtEnd escC escT = true ∧
      escC.pid = escT.pid ∧ escC.tid = escT.tid) ∧
    (reduceMaxDur0 (functionCallsIn affTrace affP) = some affC ∧
      affP.ts ≤ affC.ts ∧ endContained affC affP = true ∧
      affC.pid = affP.pid ∧ affC.tid = affP.tid) :=
  ⟨⟨by decide, C1_amended_containment.1 escTrace escT escC (by decide)⟩,
   ⟨by decide, C1_amended_containment.2 affTrace affP affC (by decide)⟩⟩

/-- C2 counterexample: in a trace whose only event is a 60 ms `FunctionCall`,
that event is both the dominant task and the selected step-2 nested event —
the search does not exclude the dominant task from its candidates. -/
theorem C2_counterexample :
    longestTask selfTrace = some selfFC ∧
      worstChildEvent selfTrace selfFC = some selfFC := by decide

/-- C2 amended: the step-2 candidate filter does not exclude the dominant
task; the selected nested event always bears one of the priority names, so it
differs from the dominant task only when the dominant task's own name is not
in the priority list. -/
theorem C2_amended_no_exclusion :
    ∀ (t : TraceDoc) (task c : TraceEvent), worstChildEvent t task = some c →
      c.name ∈ candidateEventNames ∧
        (task.name ∉ candidateEventNames → c ≠ task) := by
  intro t task c h
  obtain ⟨name, hn, hmem, _⟩ := worstChildEvent_spec h
  have hname := (childEventsFor_props hmem).2.1
  refine ⟨by rw [hname]; exact hn, ?_⟩
  intro htask hct
  apply htask
  rw [hct] at hname
  rw [hname]
  exact hn

/-- Witness for the amended C2 at `escTrace`: the dominant task's name
`"Task"` is not a priority name, and the selected event differs from it. -/
theorem C2_witness :
    worstChildEvent escTrace escT = some escC ∧
      escC.name ∈ candidateEventNames ∧ escC ≠ escT :=
  ⟨by decide,
   (C2_amended_no_exclusion escTrace escT escC (by decide)).1,
   (C2_amended_no_exclusion escTrace escT escC (by decide)).2 (by decide)⟩

/-- C3 counterexample: `affSelf` is named `"Animation Frame Fired"` and
carries complete `args.data` (its own frame exists), yet `findStackInTrace`
returns `none` — the event's own location is NOT used when the name is not
`"FunctionCall"`, refuting "regardless of the event's name". -/
theorem C3_counterexample :
    ownFrame affSelf =
      some { scriptId := some "s7", url := "app.js", lineNumber := 4, columnNumber := 5 } ∧
      findStackInTrace affSelfTrace affSelf = none := by decide

/-- C3 amended: the chosen event's own location is used directly exactly when
the event is named `"FunctionCall"` AND carries complete `args.data`; for any
other name the one-level recursion into child FunctionCall events runs even
when the event's own data is complete. -/
theorem C3_amended_direct_use :
    (∀ (t : TraceDoc) (e : TraceEvent) (f : StackFrame),
      e.name = "FunctionCall" → ownFrame e = some f →
      findStackInTrace t e = some f) ∧
    (∀ (t : TraceDoc) (e : TraceEvent), e.name ≠ "FunctionCall" →
      findStackInTrace t e = childFrame t e) := by
  constructor
  · intro t e f hn hf
    simp [findStackInTrace, hn, hf]
  · intro t e hn
    cases hf : ownFrame e <;> simp [findStackInTrace, hn, hf]

/-- Witness for the amended C3: direct use at the `FunctionCall` event `fcW`,
and recursion despite complete own data at `affSelf`. -/
theorem C3_witness :
    findStackInTrace trW fcW = some sfW ∧
      findStackInTrace affSelfTrace affSelf = childFrame affSelfTrace affSelf :=
  ⟨C3_amended_direct_use.1 trW fcW sfW rfl (by decide),
   C3_amended_direct_use.2 affSelfTrace affSelf (by decide)⟩

/-- C9: every stack frame placed in a resolved Bottleneck has line/column
exactly one greater than the raw 0-indexed values of the trace event it was
extracted from (part 1), and the controller's source-map retry block queries
the extracted coordinates unchanged first — the conversion is never
re-applied (part 2). -/
theorem C9_one_indexed_conversion :
    (∀ (t : TraceDoc) (en : String) (cat : Option String) (dur : Option Int)
       (sf : StackFrame) (pd : Option Int) (fn : String) (oa : Option Args),
      findWorstBottleneck t =
        Bottleneck.resolved en cat dur sf pd fn oa →
      ∃ e d ln cn, e ∈ t.traceEvents ∧ dataOf e = some d ∧
        d.lineNumber = some ln ∧ d.columnNumber = some cn ∧
        sf.lineNumber = ln + 1 ∧ sf.columnNumber = cn + 1) ∧
    (∀ (q : Int → Int → Option OrigPos) (line col : Int),
      (resolveWithRetries q line col).1.head? = some (line, col)) := by
  constructor
  · intro t en cat dur sf pd fn oa h
    unfold findWorstBottleneck at h
    split at h
    · exact Bottleneck.noConfusion h
    · next task hlt =>
      split at h
      · exact Bottleneck.noConfusion h
      · next c hwc =>
        split at h
        · exact Bottleneck.noConfusion h
        · next sf0 hsf =>
          injection h with h1 h2 h3 h4
          subst h4
          obtain ⟨e, hor, hf⟩ := findStackInTrace_shape hsf
          obtain ⟨d, hd, hex⟩ := ownFrame_elim hf
          obtain ⟨ln, cn, hln, hcn, hl1, hc1⟩ := extractFrame_shape hex
          refine ⟨e, d, ln, cn, ?_, hd, hln, hcn, hl1, hc1⟩
          rcases hor with he | he
          · subst he
            obtain ⟨name, _, hmem, _⟩ := worstChildEvent_spec hwc
            exact (childEventsFor_props hmem).1
          · exact he
  · intro q line col
    cases hq : q line col <;> simp [resolveWithRetries, hq]

/-- Witness for C9 at the resolved trace `trW`: raw line 9 / column 4 become
10 / 5, and the retry block's first query is at exactly those converted
coordinates. -/
theorem C9_witness :
    findWorstBottleneck trW =
      Bottleneck.resolved "Task > FunctionCall" (some "devtools.timeline")
        (some 5000) sfW (some 120000) "handler" (some ⟨some fcData⟩) ∧
    (∃ e d ln cn, e ∈ trW.traceEvents ∧ dataOf e = some d ∧
      d.lineNumber = some ln ∧ d.columnNumber = some cn ∧
      sfW.lineNumber = ln + 1 ∧ sfW.columnNumber = cn + 1) ∧
    (resolveWithRetries (fun _ _ => none) sfW.lineNumber sfW.columnNumber).1.head? =
      some (sfW.lineNumber, sfW.columnNumber) :=
  ⟨by decide,
   C9_one_indexed_conversion.1 trW "Task > FunctionCall" (some "devtools.timeline")
     (some 5000) sfW (some 120000) "handler" (some ⟨some fcData⟩) (by decide),
   C9_one_indexed_conversion.2 (fun _ _ => none) sfW.lineNumber sfW.columnNumber⟩

/-- One retryable failure prepends an attempt and its backoff wait. -/
theorem apiLoop_retry_step (op : Nat → ApiOutcome) (n : Nat) (rest : List Nat)
    (h : retryable (op n) = true) :
    apiLoop op (n :: rest) =
      (CallStep.attempt n :: CallStep.wait (2 ^ (n + 1) * 1000) ::
        (apiLoop op rest).1, (apiLoop op rest).2) := by
  rcases retryable_elim h with h1 | h1 <;> simp [apiLoop, h1]

/-- C4: with `maxRetries = 3` and an always-retryable operation (timeout or
503), exactly three attempts happen, the waits between attempts 1–2 and 2–3
are 2000 ms and 4000 ms, and the call ends in the terminal failure (the
source also sleeps 8000 ms after the third failure before throwing); a
non-retryable failure on the first attempt propagates immediately with no
further attempts. -/
theorem C4_retry_schedule :
    (∀ op : Nat → ApiOutcome, (∀ n, retryable (op n) = true) →
      makeApiCall op =
        ([CallStep.attempt 0, CallStep.wait 2000, CallStep.attempt 1,
          CallStep.wait 4000, CallStep.attempt 2, CallStep.wait 8000],
         CallResult.terminalFailure) ∧
      ((makeApiCall op).1.countP isAttempt) = 3) ∧
    (∀ (op : Nat → ApiOutcome) (e : Nat), op 0 = ApiOutcome.fatal e →
      makeApiCall op = ([CallStep.attempt 0], CallResult.nonRetryable e)) := by
  constructor
  · intro op h
    have heq : makeApiCall op =
        ([CallStep.attempt 0, CallStep.wait 2000, CallStep.attempt 1,
          CallStep.wait 4000, CallStep.attempt 2, CallStep.wait 8000],
         CallResult.terminalFailure) := by
      rw [makeApiCall, apiLoop_retry_step op 0 _ (h 0),
        apiLoop_retry_step op 1 _ (h 1), apiLoop_retry_step op 2 _ (h 2)]
      rfl
    exact ⟨heq, by rw [heq]; rfl⟩
  · intro op e h
    simp [makeApiCall, apiLoop, h]

/-- Witness for C4: the always-timeout operation, and an operation failing
fatally at once. -/
theorem C4_witness :
    makeApiCall (fun _ => ApiOutcome.timeout) =
      ([CallStep.attempt 0, CallStep.wait 2000, CallStep.attempt 1,
        CallStep.wait 4000, CallStep.attempt 2, CallStep.wait 8000],
       CallResult.terminalFailure) ∧
    makeApiCall (fun _ => ApiOutcome.fatal 7) =
      ([CallStep.attempt 0], CallResult.nonRetryable 7) :=
  ⟨(C4_retry_schedule.1 (fun _ => ApiOutcome.timeout) (fun _ => rfl)).1,
   C4_retry_schedule.2 (fun _ => ApiOutcome.fatal 7) 7 rfl⟩

/-- Behaviour of the fallback loop over any list of remaining lines: it never
makes more queries than there are lines, makes exactly one per line when all
fail, and on success the successful query is the last one made, all earlier
ones having failed. -/
theorem fallbackLoop_spec (q : Int → Int → Option OrigPos) (col : Int) :
    ∀ L : List Int,
      (fallbackLoop q col L).1.length ≤ L.length ∧
      ((fallbackLoop q col L).2 = none →
        (fallbackLoop q col L).1.length = L.length ∧
        ∀ p ∈ (fallbackLoop q col L).1, q p.1 p.2 = none) ∧
      (∀ loc, (fallbackLoop q col L).2 = some loc →
        ∃ pre p, (fallbackLoop q col L).1 = pre ++ [p] ∧
          (∀ x ∈ pre, q x.1 x.2 = none) ∧ q p.1 p.2 = some loc) := by
  intro L
  induction L with
  | nil => simp [fallbackLoop]
  | cons i rest ih =>
    obtain ⟨ihlen, ihnone, ihsome⟩ := ih
    cases hq : q i col with
    | some loc =>
      refine ⟨by simp [fallbackLoop, hq], by simp [fallbackLoop, hq], ?_⟩
      intro loc2 h2
      simp only [fallbackLoop, hq] at h2 ⊢
      rw [Option.some_inj] at h2
      exact ⟨[], (i, col), rfl, by simp, by rw [hq, h2]⟩
    | none =>
      refine ⟨?_, ?_, ?_⟩
      · simp only [fallbackLoop, hq, List.length_cons]
        omega
      · intro h2
        simp only [fallbackLoop, hq] at h2 ⊢
        obtain ⟨hlen, hmem⟩ := ihnone h2
        refine ⟨by simp [hlen], ?_⟩
        intro p hp
        rcases List.mem_cons.mp hp with hp1 | hp2
        · rw [hp1]; exact hq
        · exact hmem p hp2
      · intro loc h2
        simp only [fallbackLoop, hq] at h2 ⊢
        obtain ⟨pre, p, hdec, hpre, hp⟩ := ihsome loc h2
        refine ⟨(i, col) :: pre, p, by rw [hdec]; rfl, ?_, hp⟩
        intro x hx
        rcases List.mem_cons.mp hx with hx1 | hx2
        · rw [hx1]; exact hq
        · exact hpre x hx2

/-- C5: the retry block performs at most 1 + 5 position queries; when the
final result is `NotFound` it performs exactly 6, all failing; and when the
result is a success, the successful query is the last one performed — no
further fallback line is queried after the first success. -/
theorem C5_retry_bound (q : Int → Int → Option OrigPos) (line col : Int) :
    (resolveWithRetries q line col).1.length ≤ 6 ∧
    ((resolveWithRetries q line col).2 = none →
      (resolveWithRetries q line col).1.length = 6 ∧
      ∀ p ∈ (resolveWithRetries q line col).1, q p.1 p.2 = none) ∧
    (∀ loc, (resolveWithRetries q line col).2 = some loc →
      ∃ pre p, (resolveWithRetries q line col).1 = pre ++ [p] ∧
        (∀ x ∈ pre, q x.1 x.2 = none) ∧ q p.1 p.2 = some loc) := by
  obtain ⟨flen, fnone, fsome⟩ := fallbackLoop_spec q col fallbackLines
  cases hq : q line col with
  | some loc =>
    refine ⟨by simp [resolveWithRetries, hq], by simp [resolveWithRetries, hq], ?_⟩
    intro loc2 h2
    simp only [resolveWithRetries, hq] at h2 ⊢
    rw [Option.some_inj] at h2
    exact ⟨[], (line, col), rfl, by simp, by rw [hq, h2]⟩
  | none =>
    have hlines : fallbackLines.length = 5 := rfl
    refine ⟨?_, ?_, ?_⟩
    · simp only [resolveWithRetries, hq, List.length_cons]
      omega
    · intro h2
      simp only [resolveWithRetries, hq] at h2 ⊢
      obtain ⟨hlen, hmem⟩ := fnone h2
      refine ⟨by simp [hlen, hlines], ?_⟩
      intro p hp
      rcases List.mem_cons.mp hp with hp1 | hp2
      · rw [hp1]; exact hq
      · exact hmem p hp2
    · intro loc h2
      simp only [resolveWithRetries, hq] at h2 ⊢
      obtain ⟨pre, p, hdec, hpre, hp⟩ := fsome loc h2
      refine ⟨(line, col) :: pre, p, by rw [hdec]; rfl, ?_, hp⟩
      intro x hx
      rcases List.mem_cons.mp hx with hx1 | hx2
      · rw [hx1]; exact hq
      · exact hpre x hx2

/-- Witness for C5: with a map that never resolves, exactly 6 queries happen. -/
theorem C5_witness :
    (resolveWithRetries (fun _ _ => none) 10 4).1.length = 6 ∧
      (resolveWithRetries (fun _ _ => none) 10 4).2 = none :=
  ⟨((C5_retry_bound (fun _ _ => none) 10 4).2.1 rfl).1, rfl⟩

/-- C6 (refuted by the code): when the map fetch and the consumer creation
succeed but the position query throws, the `catch` block returns `null`
without ever calling `consumer.destroy()` — there is no `finally`, so the
consumer is NOT released on the exception path, although it is released on
the success and unresolved paths. -/
theorem C6_consumer_leak_on_throw :
    resolveSourceLocation ⟨true, true, QueryOutcome.throws⟩ =
      ([SMAction.fetch, SMAction.createConsumer, SMAction.query], none) ∧
    SMAction.destroy ∉
      (resolveSourceLocation ⟨true, true, QueryOutcome.throws⟩).1 ∧
    SMAction.destroy ∈
      (resolveSourceLocation ⟨true, true, QueryOutcome.unresolved⟩).1 := by
  decide
